import Mathlib

/- Shallow embedding of src/fetch_top_cryptos.py.

Network I/O is modelled by oracle functions passed explicitly: `netV` stands for
the bulk-archive (Binance Vision) HTTP endpoint keyed by (symbol, timeframe,
date) and `netK` for the live kline endpoint keyed by (symbol, interval, limit).
A response is abstracted to its status code together with the kline rows of its
payload projected to the two consumed columns (timestamp, close).  `yesterday`
stands for the string the code computes from the current clock when no date is
supplied.  The `dates` list of multi-day mode stands for the inclusive
day-by-day date range the code derives from start_date and end_date. -/

namespace Crypto

/-- A close-price time series: (timestamp, close) rows as both backends
produce them after parsing; only these two columns of the 12-column kline
schema are consumed by the code. -/
abbrev TimeSeries := List (Nat × Int)

/-- An HTTP response from a data backend, abstracted to its status code and
its payload parsed to (timestamp, close) kline rows. -/
structure HttpResp where
  status : Nat
  rows : TimeSeries

/-- The fixed stablecoin filter list of get_top10_symbols. -/
def stablecoins : List String := ["USDT", "USDC", "BUSD", "TUSD", "DAI", "FDUSD", "USDE"]

/-- The fixed excluded wrapped-asset filter list of get_top10_symbols. -/
def excluded : List String := ["WETH", "WBTC", "STETH"]

/-- The hand-curated fallback base-asset list of get_top10_symbols. -/
def fallback_bases : List String :=
  ["BTC", "ETH", "BNB", "XRP", "SOL", "ADA", "DOGE", "AVAX",
   "DOT", "LINK", "MATIC", "LTC", "UNI", "ATOM", "XLM",
   "FIL", "ETC", "AAVE", "ALGO", "VET", "TRX", "SUI"]

/-- Python str.startswith, on the character list of the string. -/
def strStartsWith (s p : String) : Bool := p.data.isPrefixOf s.data

/-- Python str.endswith, on the character list of the string. -/
def strEndsWith (s p : String) : Bool := p.data.reverse.isPrefixOf s.data.reverse

/-- Python str.upper for the ASCII tickers this code handles. -/
def strToUpper (s : String) : String := ⟨s.data.map Char.toUpper⟩

/-- find_valid_symbol: the exact concatenation first, then the upper-cased
variation and the hard-coded HYPE alias, then every registry entry that starts
with the base and ends in USDT; the first variation present in the registry is
returned.  The registry is modelled as a list (the Python set's iteration
order is unspecified; the list order plays that role). -/
def find_valid_symbol (base_symbol : String) (valid_symbols : List String) : Option String :=
  let exact_match := base_symbol ++ "USDT"
  if exact_match ∈ valid_symbols then some exact_match
  else
    let variations : List (Option String) :=
      [some (strToUpper base_symbol ++ "USDT"),
       if base_symbol = "HYPE" then some ("HYPER" ++ "USDT") else none] ++
      (valid_symbols.filter
        (fun s => strStartsWith s base_symbol && strEndsWith s "USDT")).map some
    (variations.filterMap id).find? (fun v => decide (v ∈ valid_symbols))

/-- The CMC loop of get_top10_symbols: walk the ranked data, break once the
accumulator holds target_count symbols, skip stablecoins and excluded assets,
append each successful resolution. -/
def primaryLoop (registry : List String) (target_count : Nat) :
    List String → List String → List String
  | [], acc => acc
  | base :: rest, acc =>
    if target_count ≤ acc.length then acc
    else if base ∈ stablecoins ∨ base ∈ excluded then primaryLoop registry target_count rest acc
    else
      match find_valid_symbol base registry with
      | some pair => primaryLoop registry target_count rest (acc ++ [pair])
      | none => primaryLoop registry target_count rest acc

/-- The fallback loop of get_top10_symbols: walk fallback_bases, break at
target_count; resolve against the registry when one is available, otherwise
synthesize base ++ "USDT" unverified. -/
def fallbackLoop (registry : List String) (target_count : Nat) :
    List String → List String → List String
  | [], acc => acc
  | base :: rest, acc =>
    if target_count ≤ acc.length then acc
    else if registry.isEmpty then
      fallbackLoop registry target_count rest (acc ++ [base ++ "USDT"])
    else
      match find_valid_symbol base registry with
      | some pair => fallbackLoop registry target_count rest (acc ++ [pair])
      | none => fallbackLoop registry target_count rest acc

/-- get_top10_symbols.  `apiData = some data` models: an API key is configured
and the CMC request answered 200 with `data` the ranked list of base tickers;
`none` models a missing key or a failed request.  The primary path runs only
when ranked data is available and the Binance registry is non-empty, exactly
as the Python guard `if api_key and valid_binance_symbols` combined with the
status check; otherwise, or when it resolves fewer than target_count symbols,
the fallback loop extends the partial accumulator.  max_fetch only shapes the
request's limit parameter and does not affect the pure logic. -/
def get_top10_symbols (apiData : Option (List String)) (registry : List String)
    (target_count : Nat) (max_fetch : Nat) : List String :=
  match apiData, registry with
  | some data, r :: rs =>
    let vs := primaryLoop (r :: rs) target_count data []
    if target_count ≤ vs.length then vs.take target_count
    else (fallbackLoop (r :: rs) target_count fallback_bases vs).take target_count
  | some _, [] => (fallbackLoop [] target_count fallback_bases []).take target_count
  | none, reg => (fallbackLoop reg target_count fallback_bases []).take target_count

/-- get_binance_vision_data: resolve the optional date to yesterday, issue the
archive request, return none on any non-200 status, otherwise the parsed
(timestamp, close) series. -/
def get_binance_vision_data (netV : String → String → String → HttpResp)
    (yesterday : String) (symbol : String) (date : Option String)
    (timeframe : String) : Option TimeSeries :=
  let d := date.getD yesterday
  let resp := netV symbol timeframe d
  if resp.status ≠ 200 then none else some resp.rows

/-- get_binance_klines: issue the live kline request, return none on any
non-200 status, otherwise the parsed (timestamp, close) series. -/
def get_binance_klines (netK : String → String → Nat → HttpResp)
    (symbol : String) (interval : String) (limit : Nat) : Option TimeSeries :=
  let resp := netK symbol interval limit
  if resp.status ≠ 200 then none else some resp.rows

/-- The kline request limit computed by get_multiple_cryptos_data:
min(days_back * 24, 1000) for the 1h timeframe, days_back otherwise. -/
def klinesLimit (days_back : Nat) (timeframe : String) : Nat :=
  if timeframe = "1h" then min (days_back * 24) 1000 else days_back

/-- The per-symbol fetch of get_multiple_cryptos_data: in auto mode the
archive first with the live API as fallback, in vision mode the archive only,
in api mode the live API only; any other source leaves data as None. -/
def fetchSymbolData (netV : String → String → String → HttpResp)
    (netK : String → String → Nat → HttpResp) (yesterday : String)
    (source : String) (days_back : Nat) (timeframe : String)
    (symbol : String) : Option TimeSeries :=
  if source = "auto" then
    match get_binance_vision_data netV yesterday symbol none timeframe with
    | some d => some d
    | none => get_binance_klines netK symbol timeframe (klinesLimit days_back timeframe)
  else if source = "vision" then
    get_binance_vision_data netV yesterday symbol none timeframe
  else if source = "api" then
    get_binance_klines netK symbol timeframe (klinesLimit days_back timeframe)
  else none

/-- The success test of the rolling-window loop: data is not None and has at
least one row. -/
def goodSeries : Option TimeSeries → Bool
  | some d => !d.isEmpty
  | none => false

/-- The rolling-window fetch loop: for each symbol in order, record
(all_data, successful_symbols, failed_symbols); a symbol joins all_data and
the success list exactly when its fetch is non-None and non-empty. -/
def rollingFetch (fetch : String → Option TimeSeries) :
    List String → List (String × TimeSeries) × List String × List String
  | [] => ([], [], [])
  | s :: rest =>
    let r := rollingFetch fetch rest
    match fetch s with
    | some d =>
      if d.isEmpty then (r.1, r.2.1, s :: r.2.2)
      else ((s, d) :: r.1, s :: r.2.1, r.2.2)
    | none => (r.1, r.2.1, s :: r.2.2)

/-- The symbol list actually used by an aggregator call: the caller's list
when one is passed, otherwise the output of get_top10_symbols with
max_fetch = target_count + 10. -/
def resolvedSymbols (apiData : Option (List String)) (registry : List String)
    (target_count : Nat) : Option (List String) → List String
  | some s => s
  | none => get_top10_symbols apiData registry target_count (target_count + 10)

/-- Lookup of a timestamp in one symbol's series, as pandas row alignment
does during concat: the close value at that timestamp if present. -/
def lookupTs (t : Nat) (s : TimeSeries) : Option Int :=
  (s.find? (fun r => r.1 == t)).map Prod.snd

/-- pd.concat(axis=1): the outer alignment of all per-symbol series on their
timestamps; each row holds one optional cell per contributing series. -/
def outerJoin (series : List (String × TimeSeries)) : List (Nat × List (Option Int)) :=
  let allTs := ((series.map (fun p => p.2.map Prod.fst)).flatten).dedup
  allTs.map (fun t => (t, series.map (fun p => lookupTs t p.2)))

/-- DataFrame.dropna(): keep exactly the rows in which every cell is present. -/
def dropna (rows : List (Nat × List (Option Int))) : List (Nat × List (Option Int)) :=
  rows.filter (fun r => r.2.all (fun c => c.isSome))

/-- get_multiple_cryptos_data: resolve the symbol list, run the rolling-window
fetch loop, raise ValueError (modelled as Except.error with the code's
message) when all_data is empty; otherwise merge with concat+dropna and
report the results.  The date-range report then evaluates
combined_df.index[0], which raises an uncaught IndexError whenever the merged
frame has zero rows — only a merge with at least one row is returned,
together with the successful and failed symbol lists the code reports. -/
def get_multiple_cryptos_data (netV : String → String → String → HttpResp)
    (netK : String → String → Nat → HttpResp) (yesterday : String)
    (apiData : Option (List String)) (registry : List String)
    (symbols : Option (List String)) (source : String) (days_back : Nat)
    (timeframe : String) (target_count : Nat) :
    Except String (List (Nat × List (Option Int)) × List String × List String) :=
  let syms := resolvedSymbols apiData registry target_count symbols
  let r := rollingFetch (fetchSymbolData netV netK yesterday source days_back timeframe) syms
  if r.1 = [] then Except.error "No data was successfully fetched for any symbol"
  else
    let combined := dropna (outerJoin r.1)
    if combined = [] then Except.error "IndexError"
    else Except.ok (combined, r.2.1, r.2.2)

/-- The multi-day per-symbol success test: at least one day of the range
returned a non-None frame (an empty 200 payload still counts, exactly as in
the code, where an empty DataFrame is appended and the list is non-empty). -/
def anyDayData (netV : String → String → String → HttpResp) (yesterday : String)
    (dates : List String) (s : String) : Bool :=
  dates.any (fun d => (get_binance_vision_data netV yesterday s (some d) "1h").isSome)

/-- The multi-day fetch loop of get_crypto_data_multi_day: break between
symbols once cnt reaches target_count; for a started symbol fetch every day
of the range at the hard-coded timeframe "1h", concatenate the returned day
frames, and record the symbol when at least one day returned data.  The
second component is the log of issued archive fetches (symbol, timeframe,
date), ghost output used to state which requests the code performs. -/
def multiDayLoop (netV : String → String → String → HttpResp) (yesterday : String)
    (dates : List String) (target_count : Nat) :
    List String → Nat → List (String × TimeSeries) × List (String × String × String)
  | [], _ => ([], [])
  | s :: rest, cnt =>
    if target_count ≤ cnt then ([], [])
    else
      let dayData := dates.filterMap
        (fun d => get_binance_vision_data netV yesterday s (some d) "1h")
      let slog := dates.map (fun d => (s, "1h", d))
      if dayData = [] then
        let r := multiDayLoop netV yesterday dates target_count rest cnt
        (r.1, slog ++ r.2)
      else
        let r := multiDayLoop netV yesterday dates target_count rest (cnt + 1)
        ((s, dayData.flatten) :: r.1, slog ++ r.2)

/-- get_crypto_data_multi_day: resolve the symbol list, run the multi-day
loop from a zero success count, raise ValueError (modelled as Except.error
with the code's message) when no symbol succeeded; otherwise merge with
concat+dropna.  The date-range report then evaluates final_df.index[0],
which raises an uncaught IndexError whenever the merged frame has zero rows —
only a merge with at least one row is returned.  The fetch log is returned
alongside as ghost output. -/
def get_crypto_data_multi_day (netV : String → String → String → HttpResp)
    (yesterday : String) (apiData : Option (List String)) (registry : List String)
    (symbols : Option (List String)) (dates : List String) (target_count : Nat) :
    Except String (List (Nat × List (Option Int))) × List (String × String × String) :=
  let syms := resolvedSymbols apiData registry target_count symbols
  let r := multiDayLoop netV yesterday dates target_count syms 0
  (if r.1 = [] then Except.error "No data was successfully fetched"
   else
     let combined := dropna (outerJoin r.1)
     if combined = [] then Except.error "IndexError"
     else Except.ok combined, r.2)

/-- A bulk-archive oracle that always answers 404: no archive exists. -/
def noNetV : String → String → String → HttpResp := fun _ _ _ => ⟨404, []⟩

/-- A live-query oracle that always answers 404. -/
def noNetK : String → String → Nat → HttpResp := fun _ _ _ => ⟨404, []⟩

/-- A live-query oracle giving the two demo symbols single rows at disjoint
timestamps. -/
def disjointK : String → String → Nat → HttpResp :=
  fun s _ _ => if s = "BTCUSDT" then ⟨200, [(0, 1)]⟩ else ⟨200, [(1, 2)]⟩

/-- A bulk-archive oracle that has data only at the 4h timeframe. -/
def fourHV : String → String → String → HttpResp :=
  fun _ tf _ => if tf = "4h" then ⟨200, [(0, 1)]⟩ else ⟨404, []⟩

/-- Two concrete overlapping series used to witness the merge theorem. -/
def demoSeries : List (String × TimeSeries) :=
  [("AUSDT", [(1, 10), (2, 20)]), ("BUSDT", [(2, 5), (3, 7)])]

/-- The three lists produced by the rolling-window loop, characterized
pointwise: successful symbols are exactly those whose fetch is non-None and
non-empty, failed symbols the rest, and the data columns follow the
successful list. -/
theorem rollingFetch_spec (fetch : String → Option TimeSeries) (syms : List String) :
    (rollingFetch fetch syms).1.map Prod.fst = syms.filter (fun s => goodSeries (fetch s)) ∧
    (rollingFetch fetch syms).2.1 = syms.filter (fun s => goodSeries (fetch s)) ∧
    (rollingFetch fetch syms).2.2 = syms.filter (fun s => !goodSeries (fetch s)) := by
  induction syms with
  | nil => simp [rollingFetch]
  | cons s rest ih =>
    obtain ⟨ih1, ih2, ih3⟩ := ih
    cases hf : fetch s with
    | none =>
      simp [rollingFetch, hf, goodSeries, List.filter_cons, ih1, ih2, ih3]
    | some d =>
      cases hd : d.isEmpty with
      | true =>
        simp [rollingFetch, hf, hd, goodSeries, List.filter_cons, ih1, ih2, ih3]
      | false =>
        simp [rollingFetch, hf, hd, goodSeries, List.filter_cons, ih1, ih2, ih3]

/-- C7: for every asset code whose exact concatenation with USDT is in the
registry, find_valid_symbol returns exactly that concatenation; the alias
table and the registry scan are never consulted. -/
theorem C7_exact_match_wins (a : String) (registry : List String)
    (h : a ++ "USDT" ∈ registry) :
    find_valid_symbol a registry = some (a ++ "USDT") := by
  simp [find_valid_symbol, h]

/-- Witness for C7 at a concrete asset and registry. -/
theorem C7_witness :
    find_valid_symbol "BTC" ["XUSDT", "BTCUSDT"] = some ("BTC" ++ "USDT") :=
  C7_exact_match_wins "BTC" ["XUSDT", "BTCUSDT"] (by decide)

/-- C8: whenever the bulk-archive backend answers the resolved
(symbol, timeframe, date) key with a non-200 status, get_binance_vision_data
returns none; the function is total, so no exception is raised. -/
theorem C8_non_success_is_none (netV : String → String → String → HttpResp)
    (yesterday symbol timeframe : String) (date : Option String)
    (h : (netV symbol timeframe (date.getD yesterday)).status ≠ 200) :
    get_binance_vision_data netV yesterday symbol date timeframe = none := by
  simp [get_binance_vision_data, h]

/-- Witness for C8: a backend answering 404 (archive not yet published). -/
theorem C8_witness :
    get_binance_vision_data (fun _ _ _ => ⟨404, []⟩) "2024-01-02" "BTCUSDT"
      (some "2030-01-01") "1h" = none :=
  C8_non_success_is_none (fun _ _ _ => ⟨404, []⟩) "2024-01-02" "BTCUSDT" "1h"
    (some "2030-01-01") (by decide)

/-- C10: in rolling-window mode a symbol whose fetch yields a non-None but
zero-row series lands in the failed list, not the successful list, and
contributes no column; success is exactly a non-None fetch with at least one
row. -/
theorem C10_empty_series_fails (fetch : String → Option TimeSeries)
    (syms : List String) (s : String) (hmem : s ∈ syms)
    (hempty : fetch s = some []) :
    s ∈ (rollingFetch fetch syms).2.2 ∧ s ∉ (rollingFetch fetch syms).2.1 ∧
    s ∉ (rollingFetch fetch syms).1.map Prod.fst ∧
    ∀ q, q ∈ (rollingFetch fetch syms).2.1 ↔ q ∈ syms ∧ goodSeries (fetch q) = true := by
  obtain ⟨h1, h2, h3⟩ := rollingFetch_spec fetch syms
  rw [h1, h2, h3]
  refine ⟨?_, ?_, ?_, ?_⟩
  · exact List.mem_filter.mpr ⟨hmem, by simp [goodSeries, hempty]⟩
  · intro hc
    have := (List.mem_filter.mp hc).2
    simp [goodSeries, hempty] at this
  · intro hc
    have := (List.mem_filter.mp hc).2
    simp [goodSeries, hempty] at this
  · intro q
    simp [List.mem_filter]

/-- Witness for C10 at a concrete fetch oracle returning an empty series. -/
theorem C10_witness :
    "BTCUSDT" ∈ (rollingFetch (fun _ => some []) ["BTCUSDT"]).2.2 ∧
    "BTCUSDT" ∉ (rollingFetch (fun _ => some []) ["BTCUSDT"]).2.1 ∧
    "BTCUSDT" ∉ (rollingFetch (fun _ => some []) ["BTCUSDT"]).1.map Prod.fst ∧
    ∀ q, q ∈ (rollingFetch (fun _ => some []) ["BTCUSDT"]).2.1 ↔
      q ∈ ["BTCUSDT"] ∧ goodSeries ((fun _ => some []) q) = true :=
  C10_empty_series_fails (fun _ => some []) ["BTCUSDT"] "BTCUSDT" (by decide) rfl

/-- With no registry, the fallback loop synthesizes base ++ USDT pairs in
order until target_count entries have been appended. -/
theorem fallbackLoop_nil_registry (tc : Nat) (bases acc : List String) :
    fallbackLoop [] tc bases acc
      = acc ++ (bases.map (fun b => b ++ "USDT")).take (tc - acc.length) := by
  induction bases generalizing acc with
  | nil => simp [fallbackLoop]
  | cons b rest ih =>
    by_cases h : tc ≤ acc.length
    · have h0 : tc - acc.length = 0 := by omega
      simp [fallbackLoop, h, h0]
    · have h2 : tc - acc.length = (tc - (acc.length + 1)) + 1 := by omega
      rw [fallbackLoop, if_neg h, if_pos (by simp), ih]
      simp [h2, List.take_succ_cons]

/-- C1, amended: the selector's output length is bounded by target_count for
every input; the no-duplicate guarantee holds on the pure-synthesis fallback
path (no ranked data, empty registry) but not in general. -/
theorem C1_selector_bounds (apiData : Option (List String)) (registry : List String)
    (tc mf : Nat) :
    (get_top10_symbols apiData registry tc mf).length ≤ tc ∧
    (apiData = none → registry = [] →
      (get_top10_symbols apiData registry tc mf).Nodup) := by
  constructor
  · match apiData, registry with
    | some data, _ :: _ =>
      simp only [get_top10_symbols]
      split
      · exact List.length_take_le tc _
      · exact List.length_take_le tc _
    | some data, [] => exact List.length_take_le tc _
    | none, registry => exact List.length_take_le tc _
  · intro hA hR
    subst hA; subst hR
    have hbase : (fallback_bases.map (fun b => b ++ "USDT")).Nodup := by decide
    simp only [get_top10_symbols, fallbackLoop_nil_registry, List.nil_append]
    exact hbase.sublist ((List.take_sublist _ _).trans (List.take_sublist _ _))

/-- Counterexample to C1 as stated: with ranked data ["BTC"], registry
["BTCUSDT"] and target_count 2, the primary path fills one slot and the
fallback path re-appends the same pair, so the output has a duplicate. -/
theorem C1_counterexample :
    get_top10_symbols (some ["BTC"]) ["BTCUSDT"] 2 5 = ["BTCUSDT", "BTCUSDT"] ∧
    ¬ (get_top10_symbols (some ["BTC"]) ["BTCUSDT"] 2 5).Nodup := by
  exact ⟨by decide, by decide⟩

/-- Witness for C1 on the pure-synthesis fallback path. -/
theorem C1_witness :
    (get_top10_symbols none [] 3 0).length ≤ 3 ∧
    (get_top10_symbols none [] 3 0).Nodup :=
  ⟨(C1_selector_bounds none [] 3 0).1, (C1_selector_bounds none [] 3 0).2 rfl rfl⟩

/-- Every member of the primary loop's output is carried in from the
accumulator or is the resolution of a ranked base ticker that passed the
stablecoin and excluded-asset filters. -/
theorem mem_primaryLoop (registry : List String) (tc : Nat) (data acc : List String)
    (p : String) (hp : p ∈ primaryLoop registry tc data acc) :
    p ∈ acc ∨ ∃ b, b ∉ stablecoins ∧ b ∉ excluded ∧
      find_valid_symbol b registry = some p := by
  induction data generalizing acc with
  | nil => simpa [primaryLoop] using Or.inl hp
  | cons base rest ih =>
    by_cases h1 : tc ≤ acc.length
    · rw [primaryLoop, if_pos h1] at hp
      exact Or.inl hp
    · by_cases h2 : base ∈ stablecoins ∨ base ∈ excluded
      · rw [primaryLoop, if_neg h1, if_pos h2] at hp
        exact ih _ hp
      · push_neg at h2
        cases hfv : find_valid_symbol base registry with
        | none =>
          rw [primaryLoop, if_neg h1, if_neg (by tauto), hfv] at hp
          exact ih _ hp
        | some pair =>
          rw [primaryLoop, if_neg h1, if_neg (by tauto), hfv] at hp
          rcases ih _ hp with hin | hex
          · rcases List.mem_append.mp hin with h | h
            · exact Or.inl h
            · have hpp : p = pair := by simpa using h
              exact Or.inr ⟨base, h2.1, h2.2, by rw [hfv, hpp]⟩
          · exact Or.inr hex

/-- Every member of the fallback loop's output is carried in from the
accumulator or arises from a fallback base, by synthesis when the registry is
empty and by resolution otherwise. -/
theorem mem_fallbackLoop (registry : List String) (tc : Nat) (bases acc : List String)
    (p : String) (hp : p ∈ fallbackLoop registry tc bases acc) :
    p ∈ acc ∨ ∃ b ∈ bases,
      (registry = [] ∧ p = b ++ "USDT") ∨ find_valid_symbol b registry = some p := by
  induction bases generalizing acc with
  | nil =>
    rw [fallbackLoop] at hp
    exact Or.inl hp
  | cons b rest ih =>
    by_cases h1 : tc ≤ acc.length
    · rw [fallbackLoop, if_pos h1] at hp
      exact Or.inl hp
    · by_cases hre : registry.isEmpty
      · rw [fallbackLoop, if_neg h1, if_pos hre] at hp
        rcases ih _ hp with hin | hex
        · rcases List.mem_append.mp hin with h | h
          · exact Or.inl h
          · exact Or.inr ⟨b, by simp, Or.inl ⟨List.isEmpty_iff.mp hre, by simpa using h⟩⟩
        · obtain ⟨b', hb', hb'2⟩ := hex
          exact Or.inr ⟨b', by simp [hb'], hb'2⟩
      · cases hfv : find_valid_symbol b registry with
        | none =>
          rw [fallbackLoop, if_neg h1, if_neg hre, hfv] at hp
          rcases ih _ hp with hin | hex
          · exact Or.inl hin
          · obtain ⟨b', hb', hb'2⟩ := hex
            exact Or.inr ⟨b', by simp [hb'], hb'2⟩
        | some pair =>
          rw [fallbackLoop, if_neg h1, if_neg hre, hfv] at hp
          rcases ih _ hp with hin | hex
          · rcases List.mem_append.mp hin with h | h
            · exact Or.inl h
            · have hpp : p = pair := by simpa using h
              exact Or.inr ⟨b, by simp, Or.inr (by rw [hfv, hpp])⟩
          · obtain ⟨b', hb', hb'2⟩ := hex
            exact Or.inr ⟨b', by simp [hb'], hb'2⟩

/-- C5, amended: every selector output pair is the resolution (or, with no
registry, the direct synthesis) of a base asset that is in neither the
stablecoin set nor the excluded set; the filters are applied to the candidate
asset codes, so a pair whose own base asset is in those sets can still be
produced when prefix-scan resolution of a different asset returns it. -/
theorem C5_filters_apply_to_candidates (apiData : Option (List String))
    (registry : List String) (tc mf : Nat) (p : String)
    (hp : p ∈ get_top10_symbols apiData registry tc mf) :
    ∃ b, b ∉ stablecoins ∧ b ∉ excluded ∧
      (find_valid_symbol b registry = some p ∨ p = b ++ "USDT") := by
  have hfb : ∀ b ∈ fallback_bases, b ∉ stablecoins ∧ b ∉ excluded := by decide
  have hOfFallback : ∀ acc : List String,
      p ∈ fallbackLoop registry tc fallback_bases acc →
      p ∈ acc ∨ ∃ b, b ∉ stablecoins ∧ b ∉ excluded ∧
        (find_valid_symbol b registry = some p ∨ p = b ++ "USDT") := by
    intro acc hmem
    rcases mem_fallbackLoop registry tc fallback_bases acc p hmem with hin | hex
    · exact Or.inl hin
    · obtain ⟨b, hb, hcase⟩ := hex
      rcases hcase with ⟨_, hsyn⟩ | hres
      · exact Or.inr ⟨b, (hfb b hb).1, (hfb b hb).2, Or.inr hsyn⟩
      · exact Or.inr ⟨b, (hfb b hb).1, (hfb b hb).2, Or.inl hres⟩
  cases apiData with
  | none =>
    rw [get_top10_symbols] at hp
    rcases hOfFallback _ (List.mem_of_mem_take hp) with hin | hgoal
    · simp at hin
    · exact hgoal
  | some data =>
    cases registry with
    | nil =>
      rw [get_top10_symbols] at hp
      rcases hOfFallback _ (List.mem_of_mem_take hp) with hin | hgoal
      · simp at hin
      · exact hgoal
    | cons r rs =>
      rw [get_top10_symbols] at hp
      split at hp
      · have hmem := List.mem_of_mem_take hp
        rcases mem_primaryLoop _ tc data [] p hmem with hin | hex
        · simp at hin
        · obtain ⟨b, hb1, hb2, hb3⟩ := hex
          exact ⟨b, hb1, hb2, Or.inl hb3⟩
      · have hmem := List.mem_of_mem_take hp
        rcases hOfFallback _ hmem with hin | hgoal
        · rcases mem_primaryLoop _ tc data [] p hin with hin2 | hex
          · simp at hin2
          · obtain ⟨b, hb1, hb2, hb3⟩ := hex
            exact ⟨b, hb1, hb2, Or.inl hb3⟩
        · exact hgoal

/-- Counterexample to C5 as stated: with ranked data ["W"] and registry
["WBTCUSDT"], prefix-scan resolution of the asset W returns WBTCUSDT, so the
selector outputs a pair whose base asset WBTC is in the excluded set. -/
theorem C5_counterexample :
    "WBTC" ++ "USDT" ∈ get_top10_symbols (some ["W"]) ["WBTCUSDT"] 1 0 ∧
    "WBTC" ∈ excluded := by
  exact ⟨by decide, by decide⟩

/-- Witness for C5 at a concrete selector run. -/
theorem C5_witness :
    ∃ b, b ∉ stablecoins ∧ b ∉ excluded ∧
      (find_valid_symbol b [] = some "BTCUSDT" ∨ "BTCUSDT" = b ++ "USDT") :=
  C5_filters_apply_to_candidates none [] 1 0 "BTCUSDT" (by decide)

/-- A timestamp lookup in a series succeeds exactly when the timestamp occurs
in the series. -/
theorem lookupTs_isSome (t : Nat) (s : TimeSeries) :
    (lookupTs t s).isSome = true ↔ t ∈ s.map Prod.fst := by
  induction s with
  | nil => simp [lookupTs]
  | cons r rest ih =>
    by_cases h : r.1 = t
    · simp [lookupTs, List.find?, h]
    · have hb : (r.1 == t) = false := by simp [h]
      have hstep : lookupTs t (r :: rest) = lookupTs t rest := by
        simp [lookupTs, List.find?, hb]
      rw [hstep, ih]
      simp only [List.map_cons, List.mem_cons]
      constructor
      · exact fun hm => Or.inr hm
      · rintro (he | hm)
        · exact absurd he.symm h
        · exact hm

/-- Membership in the merged dataset's timestamp index is exactly membership
in every contributing series' timestamp set (for a non-empty series list). -/
theorem mem_dropna_outerJoin (series : List (String × TimeSeries))
    (hne : series ≠ []) (t : Nat) :
    t ∈ (dropna (outerJoin series)).map Prod.fst ↔
      ∀ p ∈ series, t ∈ p.2.map Prod.fst := by
  constructor
  · intro ht p hpmem
    obtain ⟨r, hr, hrt⟩ := List.mem_map.mp ht
    obtain ⟨hrin, hcond⟩ := List.mem_filter.mp hr
    obtain ⟨t', _, hgt⟩ := List.mem_map.mp hrin
    have ht' : t' = t := by rw [← hrt, ← hgt]
    subst ht'
    have hcell : lookupTs t' p.2 ∈ r.2 := by
      rw [← hgt]
      exact List.mem_map.mpr ⟨p, hpmem, rfl⟩
    have := (List.all_eq_true.mp hcond) _ hcell
    exact (lookupTs_isSome t' p.2).mp this
  · intro hall
    obtain ⟨p0, hp0⟩ := List.exists_mem_of_ne_nil series hne
    have htall : t ∈ ((series.map (fun p => p.2.map Prod.fst)).flatten).dedup := by
      rw [List.mem_dedup]
      exact List.mem_flatten.mpr
        ⟨p0.2.map Prod.fst, List.mem_map.mpr ⟨p0, hp0, rfl⟩, hall p0 hp0⟩
    refine List.mem_map.mpr ⟨(t, series.map (fun p => lookupTs t p.2)), ?_, rfl⟩
    refine List.mem_filter.mpr ⟨List.mem_map.mpr ⟨t, htall, rfl⟩, ?_⟩
    refine List.all_eq_true.mpr ?_
    intro c hc
    obtain ⟨p, hpmem, hpc⟩ := List.mem_map.mp hc
    rw [← hpc]
    exact (lookupTs_isSome t p.2).mpr (hall p hpmem)

/-- C2: the merged dataset's timestamp index is exactly the intersection of
the contributing series' timestamp sets, and every remaining cell is
present. -/
theorem C2_merge_intersection (series : List (String × TimeSeries))
    (hne : series ≠ [])
    (hsorted : ∀ p ∈ series, List.Pairwise (· < ·) (p.2.map Prod.fst)) :
    (∀ t, t ∈ (dropna (outerJoin series)).map Prod.fst ↔
      ∀ p ∈ series, t ∈ p.2.map Prod.fst) ∧
    (∀ r ∈ dropna (outerJoin series), r.2.all (fun c => c.isSome) = true) := by
  constructor
  · intro t
    exact mem_dropna_outerJoin series hne t
  · intro r hr
    exact (List.mem_filter.mp hr).2

/-- Witness for C2 at two concrete overlapping series. -/
theorem C2_witness :
    (∀ t, t ∈ (dropna (outerJoin demoSeries)).map Prod.fst ↔
      ∀ p ∈ demoSeries, t ∈ p.2.map Prod.fst) ∧
    (∀ r ∈ dropna (outerJoin demoSeries), r.2.all (fun c => c.isSome) = true) :=
  C2_merge_intersection demoSeries (by decide) (by decide)

/-- The per-symbol day loop collects no frame exactly when every day of the
range yields none. -/
theorem dayData_nil_iff (netV : String → String → String → HttpResp)
    (yesterday : String) (dates : List String) (s : String) :
    (dates.filterMap (fun d => get_binance_vision_data netV yesterday s (some d) "1h") = [])
      ↔ anyDayData netV yesterday dates s = false := by
  rw [List.filterMap_eq_nil_iff, anyDayData, List.any_eq_false]
  constructor
  · intro h d hd
    rw [h d hd]
    simp
  · intro h d hd
    exact Option.not_isSome_iff_eq_none.mp (h d hd)

/-- While the running success count is below target_count, the multi-day loop
collects nothing exactly when every remaining symbol fails on every day. -/
theorem multiDayLoop_nil_iff (netV : String → String → String → HttpResp)
    (yesterday : String) (dates : List String) (tc : Nat)
    (syms : List String) (cnt : Nat) (hcnt : cnt < tc) :
    (multiDayLoop netV yesterday dates tc syms cnt).1 = []
      ↔ ∀ s ∈ syms, anyDayData netV yesterday dates s = false := by
  induction syms with
  | nil => simp [multiDayLoop]
  | cons s rest ih =>
    simp only [multiDayLoop]
    rw [if_neg (by omega)]
    by_cases hdd : dates.filterMap
        (fun d => get_binance_vision_data netV yesterday s (some d) "1h") = []
    · rw [if_pos hdd]
      have hs : anyDayData netV yesterday dates s = false :=
        (dayData_nil_iff netV yesterday dates s).mp hdd
      constructor
      · intro hall s' hs'
        rcases List.mem_cons.mp hs' with he | hm
        · rw [he]
          exact hs
        · exact (ih.mp hall) s' hm
      · intro hall
        exact ih.mpr (fun s' hm => hall s' (List.mem_cons_of_mem s hm))
    · rw [if_neg hdd]
      have hst : anyDayData netV yesterday dates s = true := by
        cases hb : anyDayData netV yesterday dates s with
        | false => exact absurd ((dayData_nil_iff netV yesterday dates s).mpr hb) hdd
        | true => rfl
      refine iff_of_false (by simp) ?_
      intro hall
      have := hall s (List.mem_cons_self s rest)
      rw [hst] at this
      cases this

/-- One step of the multi-day loop when the success count has reached
target_count: the loop breaks before starting the next symbol. -/
theorem multiDayLoop_cons_break (netV : String → String → String → HttpResp)
    (yesterday : String) (dates : List String) (tc : Nat) (s : String)
    (rest : List String) (cnt : Nat) (hbr : tc ≤ cnt) :
    multiDayLoop netV yesterday dates tc (s :: rest) cnt = ([], []) := by
  simp only [multiDayLoop]
  rw [if_pos hbr]

/-- One step of the multi-day loop when the next symbol has no data on any
day: all its dates are fetched and logged, nothing is recorded, the count is
unchanged. -/
theorem multiDayLoop_cons_fail (netV : String → String → String → HttpResp)
    (yesterday : String) (dates : List String) (tc : Nat) (s : String)
    (rest : List String) (cnt : Nat) (hbr : ¬ tc ≤ cnt)
    (hdd : dates.filterMap
      (fun d => get_binance_vision_data netV yesterday s (some d) "1h") = []) :
    multiDayLoop netV yesterday dates tc (s :: rest) cnt
      = ((multiDayLoop netV yesterday dates tc rest cnt).1,
         dates.map (fun d => (s, "1h", d))
           ++ (multiDayLoop netV yesterday dates tc rest cnt).2) := by
  simp only [multiDayLoop]
  rw [if_neg hbr, if_pos hdd]

/-- One step of the multi-day loop when the next symbol has data on at least
one day: all its dates are fetched and logged, the concatenated day frames
are recorded, the count advances. -/
theorem multiDayLoop_cons_succ (netV : String → String → String → HttpResp)
    (yesterday : String) (dates : List String) (tc : Nat) (s : String)
    (rest : List String) (cnt : Nat) (hbr : ¬ tc ≤ cnt)
    (hdd : ¬ dates.filterMap
      (fun d => get_binance_vision_data netV yesterday s (some d) "1h") = []) :
    multiDayLoop netV yesterday dates tc (s :: rest) cnt
      = ((s, (dates.filterMap
            (fun d => get_binance_vision_data netV yesterday s (some d) "1h")).flatten)
           :: (multiDayLoop netV yesterday dates tc rest (cnt + 1)).1,
         dates.map (fun d => (s, "1h", d))
           ++ (multiDayLoop netV yesterday dates tc rest (cnt + 1)).2) := by
  simp only [multiDayLoop]
  rw [if_neg hbr, if_neg hdd]

/-- Full characterization of the multi-day loop from a running count: it
processes exactly a prefix of the symbol list, records as successful
precisely the processed symbols with at least one day of data, fetches every
date of each started symbol, starts a symbol only while the success count is
below target_count, and stops early only once the count has reached
target_count. -/
theorem multiDayLoop_spec (netV : String → String → String → HttpResp)
    (yesterday : String) (dates : List String) (tc : Nat)
    (syms : List String) (cnt : Nat) :
    ∃ k, k ≤ syms.length ∧
      (multiDayLoop netV yesterday dates tc syms cnt).1.map Prod.fst
        = (syms.take k).filter (anyDayData netV yesterday dates) ∧
      (multiDayLoop netV yesterday dates tc syms cnt).2
        = (syms.take k).flatMap (fun s => dates.map (fun d => (s, "1h", d))) ∧
      (∀ j, j < k →
        cnt + ((syms.take j).filter (anyDayData netV yesterday dates)).length < tc) ∧
      (k < syms.length →
        tc ≤ cnt + ((syms.take k).filter (anyDayData netV yesterday dates)).length) := by
  induction syms generalizing cnt with
  | nil =>
    refine ⟨0, Nat.le_refl 0, by simp [multiDayLoop], by simp [multiDayLoop], ?_, ?_⟩
    · intro j hj
      omega
    · intro h
      simp at h
  | cons s rest ih =>
    by_cases hbr : tc ≤ cnt
    · refine ⟨0, Nat.zero_le _, ?_, ?_, ?_, ?_⟩
      · rw [multiDayLoop_cons_break netV yesterday dates tc s rest cnt hbr]
        simp
      · rw [multiDayLoop_cons_break netV yesterday dates tc s rest cnt hbr]
        simp
      · intro j hj
        omega
      · intro _
        simpa using hbr
    · by_cases hdd : dates.filterMap
          (fun d => get_binance_vision_data netV yesterday s (some d) "1h") = []
      · have hps : anyDayData netV yesterday dates s = false :=
          (dayData_nil_iff netV yesterday dates s).mp hdd
        have hpsn : ¬ anyDayData netV yesterday dates s := by simp [hps]
        obtain ⟨k, hkle, hm, hl, hlow, hstop⟩ := ih cnt
        refine ⟨k + 1, by simpa using Nat.succ_le_succ hkle, ?_, ?_, ?_, ?_⟩
        · rw [multiDayLoop_cons_fail netV yesterday dates tc s rest cnt hbr hdd]
          dsimp only
          rw [List.take_succ_cons, List.filter_cons_of_neg hpsn]
          exact hm
        · rw [multiDayLoop_cons_fail netV yesterday dates tc s rest cnt hbr hdd]
          dsimp only
          rw [List.take_succ_cons, List.flatMap_cons, hl]
        · intro j hj
          cases j with
          | zero =>
            simpa using (by omega : cnt < tc)
          | succ j' =>
            have := hlow j' (by omega)
            rw [List.take_succ_cons, List.filter_cons_of_neg hpsn]
            exact this
        · intro hlt
          have := hstop (by simpa using hlt)
          rw [List.take_succ_cons, List.filter_cons_of_neg hpsn]
          exact this
      · have hps : anyDayData netV yesterday dates s = true := by
          cases hb : anyDayData netV yesterday dates s with
          | false => exact absurd ((dayData_nil_iff netV yesterday dates s).mpr hb) hdd
          | true => rfl
        obtain ⟨k, hkle, hm, hl, hlow, hstop⟩ := ih (cnt + 1)
        refine ⟨k + 1, by simpa using Nat.succ_le_succ hkle, ?_, ?_, ?_, ?_⟩
        · rw [multiDayLoop_cons_succ netV yesterday dates tc s rest cnt hbr hdd]
          dsimp only
          rw [List.take_succ_cons, List.filter_cons_of_pos hps]
          simp [hm]
        · rw [multiDayLoop_cons_succ netV yesterday dates tc s rest cnt hbr hdd]
          dsimp only
          rw [List.take_succ_cons, List.flatMap_cons, hl]
        · intro j hj
          cases j with
          | zero =>
            simpa using (by omega : cnt < tc)
          | succ j' =>
            have := hlow j' (by omega)
            rw [List.take_succ_cons, List.filter_cons_of_pos hps]
            simp only [List.length_cons]
            omega
        · intro hlt
          have := hstop (by simpa using hlt)
          rw [List.take_succ_cons, List.filter_cons_of_pos hps]
          simp only [List.length_cons]
          omega

/-- C6: the multi-day fetch loop of get_crypto_data_multi_day processes a
prefix of the symbol list; a symbol is recorded as successful exactly when at
least one day of the range returned data; every started symbol has all of its
dates fetched (the day loop runs to completion); a symbol is started only
while fewer than target_count symbols have succeeded, and the loop stops
before the end of the list only once target_count successes have been
collected. -/
theorem C6_multiday_success_early_exit (netV : String → String → String → HttpResp)
    (yesterday : String) (dates : List String) (tc : Nat) (syms : List String) :
    ∃ k, k ≤ syms.length ∧
      (multiDayLoop netV yesterday dates tc syms 0).1.map Prod.fst
        = (syms.take k).filter (anyDayData netV yesterday dates) ∧
      (multiDayLoop netV yesterday dates tc syms 0).2
        = (syms.take k).flatMap (fun s => dates.map (fun d => (s, "1h", d))) ∧
      (∀ j, j < k →
        ((syms.take j).filter (anyDayData netV yesterday dates)).length < tc) ∧
      (k < syms.length →
        tc ≤ ((syms.take k).filter (anyDayData netV yesterday dates)).length) := by
  obtain ⟨k, h1, h2, h3, h4, h5⟩ := multiDayLoop_spec netV yesterday dates tc syms 0
  refine ⟨k, h1, h2, h3, ?_, ?_⟩
  · intro j hj
    have := h4 j hj
    omega
  · intro hlt
    have := h5 hlt
    omega

/-- Witness for C6 at a concrete one-symbol, one-day run. -/
theorem C6_witness :
    ∃ k, k ≤ (["BTCUSDT"] : List String).length ∧
      (multiDayLoop noNetV "y" ["2024-01-01"] 1 ["BTCUSDT"] 0).1.map Prod.fst
        = ((["BTCUSDT"] : List String).take k).filter (anyDayData noNetV "y" ["2024-01-01"]) ∧
      (multiDayLoop noNetV "y" ["2024-01-01"] 1 ["BTCUSDT"] 0).2
        = ((["BTCUSDT"] : List String).take k).flatMap
            (fun s => (["2024-01-01"] : List String).map (fun d => (s, "1h", d))) ∧
      (∀ j, j < k →
        (((["BTCUSDT"] : List String).take j).filter
          (anyDayData noNetV "y" ["2024-01-01"])).length < 1) ∧
      (k < (["BTCUSDT"] : List String).length →
        1 ≤ (((["BTCUSDT"] : List String).take k).filter
          (anyDayData noNetV "y" ["2024-01-01"])).length) :=
  C6_multiday_success_early_exit noNetV "y" ["2024-01-01"] 1 ["BTCUSDT"]

/-- Every archive fetch issued by the multi-day loop uses timeframe 1h. -/
theorem multiDayLoop_log_1h (netV : String → String → String → HttpResp)
    (yesterday : String) (dates : List String) (tc : Nat) (syms : List String)
    (cnt : Nat) (e : String × String × String)
    (he : e ∈ (multiDayLoop netV yesterday dates tc syms cnt).2) : e.2.1 = "1h" := by
  induction syms generalizing cnt with
  | nil => simp [multiDayLoop] at he
  | cons s rest ih =>
    by_cases hbr : tc ≤ cnt
    · rw [multiDayLoop_cons_break netV yesterday dates tc s rest cnt hbr] at he
      simp at he
    · by_cases hdd : dates.filterMap
          (fun d => get_binance_vision_data netV yesterday s (some d) "1h") = []
      · rw [multiDayLoop_cons_fail netV yesterday dates tc s rest cnt hbr hdd] at he
        dsimp only at he
        rcases List.mem_append.mp he with hl | hr
        · obtain ⟨d, _, hd⟩ := List.mem_map.mp hl
          rw [← hd]
        · exact ih cnt hr
      · rw [multiDayLoop_cons_succ netV yesterday dates tc s rest cnt hbr hdd] at he
        dsimp only at he
        rcases List.mem_append.mp he with hl | hr
        · obtain ⟨d, _, hd⟩ := List.mem_map.mp hl
          rw [← hd]
        · exact ih (cnt + 1) hr

/-- C9, amended: get_crypto_data_multi_day takes no timeframe parameter;
every per-day archive fetch it issues uses the hard-coded timeframe 1h, for
every input.  (The rolling-window aggregator does take a timeframe parameter
with default 1h; multi-day mode does not.) -/
theorem C9_timeframe_hardcoded (netV : String → String → String → HttpResp)
    (yesterday : String) (apiData : Option (List String)) (registry : List String)
    (msymbols : Option (List String)) (dates : List String) (tc : Nat)
    (e : String × String × String)
    (he : e ∈ (get_crypto_data_multi_day netV yesterday apiData registry msymbols
      dates tc).2) :
    e.2.1 = "1h" := by
  simp only [get_crypto_data_multi_day] at he
  exact multiDayLoop_log_1h netV yesterday dates tc
    (resolvedSymbols apiData registry tc msymbols) 0 e he

/-- Counterexample to C9 as stated: an archive oracle that has data only at
the 4h timeframe; multi-day mode still fetches at 1h (as its log shows) and
fails, so the timeframe cannot be supplied by the caller. -/
theorem C9_counterexample :
    get_binance_vision_data fourHV "y" "BTCUSDT" (some "2024-01-01") "4h"
      = some [(0, 1)] ∧
    get_crypto_data_multi_day fourHV "y" none [] (some ["BTCUSDT"]) ["2024-01-01"] 1
      = (Except.error "No data was successfully fetched",
         [("BTCUSDT", "1h", "2024-01-01")]) :=
  ⟨rfl, rfl⟩

/-- Witness for C9 at a concrete log entry. -/
theorem C9_witness :
    (("BTCUSDT", "1h", "2024-01-01") : String × String × String).2.1 = "1h" :=
  C9_timeframe_hardcoded fourHV "y" none [] (some ["BTCUSDT"]) ["2024-01-01"] 1
    ("BTCUSDT", "1h", "2024-01-01") (by decide)

/-- With a target count of zero the multi-day loop breaks before its first
symbol and collects nothing. -/
theorem multiDayLoop_zero_target (netV : String → String → String → HttpResp)
    (yesterday : String) (dates : List String) (syms : List String) (cnt : Nat) :
    multiDayLoop netV yesterday dates 0 syms cnt = ([], []) := by
  cases syms with
  | nil => rfl
  | cons s rest =>
    exact multiDayLoop_cons_break netV yesterday dates 0 s rest cnt (Nat.zero_le cnt)

/-- C3, amended: both aggregators raise NoDataError exactly when zero symbols
produced any data in the run (multi-day mode with target_count 0 starts no
symbol and also raises it); when at least one symbol succeeds NoDataError is
not raised, but the run is still not error-free — the final date-range report
raises an uncaught IndexError exactly when the merged post-dropna dataset has
zero rows, and the partial result is returned exactly when that dataset has
at least one row. -/
theorem C3_error_conditions (netV : String → String → String → HttpResp)
    (netK : String → String → Nat → HttpResp) (yesterday : String)
    (apiData : Option (List String)) (registry : List String)
    (rsymbols msymbols : Option (List String)) (source : String)
    (days_back : Nat) (timeframe : String) (target_count : Nat)
    (dates : List String) :
    (get_multiple_cryptos_data netV netK yesterday apiData registry rsymbols
        source days_back timeframe target_count
        = Except.error "No data was successfully fetched for any symbol"
      ↔ ∀ s ∈ resolvedSymbols apiData registry target_count rsymbols,
          goodSeries (fetchSymbolData netV netK yesterday source days_back timeframe s)
            = false) ∧
    ((get_crypto_data_multi_day netV yesterday apiData registry msymbols dates
        target_count).1
        = Except.error "No data was successfully fetched"
      ↔ (target_count = 0 ∨
          ∀ s ∈ resolvedSymbols apiData registry target_count msymbols,
            anyDayData netV yesterday dates s = false)) ∧
    (get_multiple_cryptos_data netV netK yesterday apiData registry rsymbols
        source days_back timeframe target_count
        = Except.error "IndexError"
      ↔ ((rollingFetch (fetchSymbolData netV netK yesterday source days_back timeframe)
            (resolvedSymbols apiData registry target_count rsymbols)).1 ≠ [] ∧
          dropna (outerJoin (rollingFetch
            (fetchSymbolData netV netK yesterday source days_back timeframe)
            (resolvedSymbols apiData registry target_count rsymbols)).1) = [])) ∧
    ((get_crypto_data_multi_day netV yesterday apiData registry msymbols dates
        target_count).1
        = Except.error "IndexError"
      ↔ ((multiDayLoop netV yesterday dates target_count
            (resolvedSymbols apiData registry target_count msymbols) 0).1 ≠ [] ∧
          dropna (outerJoin (multiDayLoop netV yesterday dates target_count
            (resolvedSymbols apiData registry target_count msymbols) 0).1) = [])) ∧
    ((rollingFetch (fetchSymbolData netV netK yesterday source days_back timeframe)
        (resolvedSymbols apiData registry target_count rsymbols)).1 ≠ [] →
      dropna (outerJoin (rollingFetch
        (fetchSymbolData netV netK yesterday source days_back timeframe)
        (resolvedSymbols apiData registry target_count rsymbols)).1) ≠ [] →
      get_multiple_cryptos_data netV netK yesterday apiData registry rsymbols
        source days_back timeframe target_count
        = Except.ok (dropna (outerJoin (rollingFetch
            (fetchSymbolData netV netK yesterday source days_back timeframe)
            (resolvedSymbols apiData registry target_count rsymbols)).1),
          (rollingFetch (fetchSymbolData netV netK yesterday source days_back timeframe)
            (resolvedSymbols apiData registry target_count rsymbols)).2.1,
          (rollingFetch (fetchSymbolData netV netK yesterday source days_back timeframe)
            (resolvedSymbols apiData registry target_count rsymbols)).2.2)) ∧
    ((multiDayLoop netV yesterday dates target_count
        (resolvedSymbols apiData registry target_count msymbols) 0).1 ≠ [] →
      dropna (outerJoin (multiDayLoop netV yesterday dates target_count
        (resolvedSymbols apiData registry target_count msymbols) 0).1) ≠ [] →
      (get_crypto_data_multi_day netV yesterday apiData registry msymbols dates
        target_count).1
        = Except.ok (dropna (outerJoin (multiDayLoop netV yesterday dates target_count
            (resolvedSymbols apiData registry target_count msymbols) 0).1))) := by
  obtain ⟨h1, h2, h3⟩ := rollingFetch_spec
    (fetchSymbolData netV netK yesterday source days_back timeframe)
    (resolvedSymbols apiData registry target_count rsymbols)
  have hunfoldR : get_multiple_cryptos_data netV netK yesterday apiData registry rsymbols
      source days_back timeframe target_count
      = (if (rollingFetch (fetchSymbolData netV netK yesterday source days_back timeframe)
            (resolvedSymbols apiData registry target_count rsymbols)).1 = []
         then Except.error "No data was successfully fetched for any symbol"
         else if dropna (outerJoin (rollingFetch
                (fetchSymbolData netV netK yesterday source days_back timeframe)
                (resolvedSymbols apiData registry target_count rsymbols)).1) = []
           then Except.error "IndexError"
           else Except.ok (dropna (outerJoin (rollingFetch
                  (fetchSymbolData netV netK yesterday source days_back timeframe)
                  (resolvedSymbols apiData registry target_count rsymbols)).1),
             (rollingFetch (fetchSymbolData netV netK yesterday source days_back timeframe)
               (resolvedSymbols apiData registry target_count rsymbols)).2.1,
             (rollingFetch (fetchSymbolData netV netK yesterday source days_back timeframe)
               (resolvedSymbols apiData registry target_count rsymbols)).2.2)) := rfl
  have hunfoldM : (get_crypto_data_multi_day netV yesterday apiData registry msymbols dates
      target_count).1
      = (if (multiDayLoop netV yesterday dates target_count
            (resolvedSymbols apiData registry target_count msymbols) 0).1 = []
         then Except.error "No data was successfully fetched"
         else if dropna (outerJoin (multiDayLoop netV yesterday dates target_count
                (resolvedSymbols apiData registry target_count msymbols) 0).1) = []
           then Except.error "IndexError"
           else Except.ok (dropna (outerJoin (multiDayLoop netV yesterday dates target_count
                  (resolvedSymbols apiData registry target_count msymbols) 0).1))) := rfl
  have hallR : (rollingFetch (fetchSymbolData netV netK yesterday source days_back timeframe)
        (resolvedSymbols apiData registry target_count rsymbols)).1 = [] →
      ∀ s ∈ resolvedSymbols apiData registry target_count rsymbols,
        goodSeries (fetchSymbolData netV netK yesterday source days_back timeframe s)
          = false := by
    intro hc s hs
    have hfilter : (resolvedSymbols apiData registry target_count rsymbols).filter
        (fun s => goodSeries
          (fetchSymbolData netV netK yesterday source days_back timeframe s)) = [] := by
      rw [← h1, hc]
      rfl
    simpa using List.filter_eq_nil_iff.mp hfilter s hs
  have hnallR : (rollingFetch (fetchSymbolData netV netK yesterday source days_back timeframe)
        (resolvedSymbols apiData registry target_count rsymbols)).1 ≠ [] →
      ¬ ∀ s ∈ resolvedSymbols apiData registry target_count rsymbols,
        goodSeries (fetchSymbolData netV netK yesterday source days_back timeframe s)
          = false := by
    intro hc hall
    exact hc (List.map_eq_nil_iff.mp (h1.trans (List.filter_eq_nil_iff.mpr
      (fun s hs => by simp [hall s hs]))))
  refine ⟨?_, ?_, ?_, ?_, ?_, ?_⟩
  · rw [hunfoldR]
    by_cases hc1 : (rollingFetch
        (fetchSymbolData netV netK yesterday source days_back timeframe)
        (resolvedSymbols apiData registry target_count rsymbols)).1 = []
    · rw [if_pos hc1]
      exact iff_of_true rfl (hallR hc1)
    · rw [if_neg hc1]
      by_cases hc2 : dropna (outerJoin (rollingFetch
          (fetchSymbolData netV netK yesterday source days_back timeframe)
          (resolvedSymbols apiData registry target_count rsymbols)).1) = []
      · rw [if_pos hc2]
        refine iff_of_false ?_ (hnallR hc1)
        intro h
        injection h with h2
        exact absurd h2 (by decide)
      · rw [if_neg hc2]
        exact iff_of_false (by simp) (hnallR hc1)
  · rw [hunfoldM]
    by_cases hm1 : (multiDayLoop netV yesterday dates target_count
        (resolvedSymbols apiData registry target_count msymbols) 0).1 = []
    · rw [if_pos hm1]
      refine iff_of_true rfl ?_
      by_cases htc : target_count = 0
      · exact Or.inl htc
      · exact Or.inr ((multiDayLoop_nil_iff netV yesterday dates target_count
          (resolvedSymbols apiData registry target_count msymbols) 0
          (Nat.pos_of_ne_zero htc)).mp hm1)
    · have hRHSfalse : ¬ (target_count = 0 ∨
          ∀ s ∈ resolvedSymbols apiData registry target_count msymbols,
            anyDayData netV yesterday dates s = false) := by
        rintro (h0 | hall)
        · subst h0
          rw [multiDayLoop_zero_target] at hm1
          simp at hm1
        · by_cases htc : target_count = 0
          · subst htc
            rw [multiDayLoop_zero_target] at hm1
            simp at hm1
          · exact hm1 ((multiDayLoop_nil_iff netV yesterday dates target_count
              (resolvedSymbols apiData registry target_count msymbols) 0
              (Nat.pos_of_ne_zero htc)).mpr hall)
      rw [if_neg hm1]
      by_cases hm2 : dropna (outerJoin (multiDayLoop netV yesterday dates target_count
          (resolvedSymbols apiData registry target_count msymbols) 0).1) = []
      · rw [if_pos hm2]
        refine iff_of_false ?_ hRHSfalse
        intro h
        injection h with h2
        exact absurd h2 (by decide)
      · rw [if_neg hm2]
        exact iff_of_false (by simp) hRHSfalse
  · rw [hunfoldR]
    by_cases hc1 : (rollingFetch
        (fetchSymbolData netV netK yesterday source days_back timeframe)
        (resolvedSymbols apiData registry target_count rsymbols)).1 = []
    · rw [if_pos hc1]
      refine iff_of_false ?_ (fun h => h.1 hc1)
      intro h
      injection h with h2
      exact absurd h2 (by decide)
    · rw [if_neg hc1]
      by_cases hc2 : dropna (outerJoin (rollingFetch
          (fetchSymbolData netV netK yesterday source days_back timeframe)
          (resolvedSymbols apiData registry target_count rsymbols)).1) = []
      · rw [if_pos hc2]
        exact iff_of_true rfl ⟨hc1, hc2⟩
      · rw [if_neg hc2]
        exact iff_of_false (by simp) (fun h => hc2 h.2)
  · rw [hunfoldM]
    by_cases hm1 : (multiDayLoop netV yesterday dates target_count
        (resolvedSymbols apiData registry target_count msymbols) 0).1 = []
    · rw [if_pos hm1]
      refine iff_of_false ?_ (fun h => h.1 hm1)
      intro h
      injection h with h2
      exact absurd h2 (by decide)
    · rw [if_neg hm1]
      by_cases hm2 : dropna (outerJoin (multiDayLoop netV yesterday dates target_count
          (resolvedSymbols apiData registry target_count msymbols) 0).1) = []
      · rw [if_pos hm2]
        exact iff_of_true rfl ⟨hm1, hm2⟩
      · rw [if_neg hm2]
        exact iff_of_false (by simp) (fun h => hm2 h.2)
  · intro hc1 hc2
    rw [hunfoldR, if_neg hc1, if_neg hc2]
  · intro hm1 hm2
    rw [hunfoldM, if_neg hm1, if_neg hm2]

/-- Counterexample to C3 as stated: both symbols succeed on the live backend
(so at least one symbol succeeded), yet an error is raised — their series
share no timestamp, the merged dataset has zero rows, and the date-range
report raises IndexError. -/
theorem C3_counterexample :
    (rollingFetch (fetchSymbolData noNetV disjointK "y" "auto" 7 "1h")
        ["BTCUSDT", "ETHUSDT"]).2.1 = ["BTCUSDT", "ETHUSDT"] ∧
    get_multiple_cryptos_data noNetV disjointK "y" none [] (some ["BTCUSDT", "ETHUSDT"])
      "auto" 7 "1h" 10 = Except.error "IndexError" :=
  ⟨by rfl, by rfl⟩

/-- Witness for C3 at concrete oracles that always fail. -/
theorem C3_witness :
    get_multiple_cryptos_data noNetV noNetK "y" none [] (some ["BTCUSDT"])
        "auto" 7 "1h" 10
        = Except.error "No data was successfully fetched for any symbol"
      ↔ ∀ s ∈ resolvedSymbols none [] 10 (some ["BTCUSDT"]),
          goodSeries (fetchSymbolData noNetV noNetK "y" "auto" 7 "1h" s) = false :=
  (C3_error_conditions noNetV noNetK "y" none [] (some ["BTCUSDT"]) (some ["BTCUSDT"])
    "auto" 7 "1h" 10 ["2024-01-01"]).1

end Crypto
